import Mathlib

/-!
Shallow embedding of the KanMind backend (Django/DRF) data model and the
board/task/comment API operations, translated from
`boards_app/models.py`, `boards_app/api/views.py`, `boards_app/api/serializers.py`,
`task_app/models.py`, `task_app/api/views.py`, `task_app/api/serializers.py`.

Users are identified by their primary key. Django model instances compare
by primary key, so foreign keys are embedded as ids. `DateTimeField`
timestamps (`auto_now_add`) are modelled by a logical clock on the store
that increases with each comment insertion.
-/

namespace KanMind

abbrev UserId := Nat
abbrev BoardId := Nat
abbrev TaskId := Nat
abbrev CommentId := Nat

/-- Board model (`boards_app/models.py`): title, owner FK, members M2M. -/
structure Board where
  id : BoardId
  title : String
  owner : UserId
  members : List UserId
deriving DecidableEq, Repr

/-- Task model (`task_app/models.py`): board FK, text fields, optional assignee
and reviewer FKs (`null=True`), owner FK, due date. -/
structure Task where
  id : TaskId
  board : BoardId
  title : String
  description : String
  status : String
  priority : String
  assignee : Option UserId
  reviewer : Option UserId
  owner : UserId
  dueDate : Nat
deriving DecidableEq, Repr

/-- Comment model (`task_app/models.py`): task FK, author FK, content,
created_at. -/
structure Comment where
  id : CommentId
  task : TaskId
  author : UserId
  content : String
  createdAt : Nat
deriving DecidableEq, Repr

/-- The persistent store: the user table (pks only), the three model tables,
and a logical clock supplying `auto_now_add` timestamps. -/
structure DB where
  users : List UserId
  boards : List Board
  tasks : List Task
  comments : List Comment
  clock : Nat
deriving DecidableEq, Repr

/-- Outcome of one API operation. `notFound`, `accessDenied`, `invalidInput`
are DRF's `NotFound` (404), `PermissionDenied` (403), `ValidationError` (400);
`unhandledException` is a Python exception escaping the view (e.g. an
`AttributeError`), which DRF does not map to a taxonomy error. -/
inductive ApiOutcome (α : Type) where
  | ok : α → ApiOutcome α
  | notFound : ApiOutcome α
  | accessDenied : ApiOutcome α
  | invalidInput : ApiOutcome α
  | unhandledException : ApiOutcome α
deriving DecidableEq, Repr

/-- Whether an outcome is a success. -/
def ApiOutcome.isOk {α : Type} : ApiOutcome α → Bool
  | ApiOutcome.ok _ => true
  | _ => false

/-- Primary-key lookup in the user table (`User.objects.all()` querysets). -/
def findUser (db : DB) (uid : UserId) : Option UserId :=
  db.users.find? (fun u => u == uid)

/-- Primary-key lookup in the board table. -/
def findBoard (db : DB) (bid : BoardId) : Option Board :=
  db.boards.find? (fun b => b.id == bid)

/-- Primary-key lookup in the task table (`get_object_or_404(Task, pk=...)`). -/
def findTask (db : DB) (tid : TaskId) : Option Task :=
  db.tasks.find? (fun t => t.id == tid)

/-- Lookup `get_object_or_404(Comment, pk=comment_id, task=task)`. -/
def findComment (db : DB) (tid : TaskId) (cid : CommentId) : Option Comment :=
  db.comments.find? (fun c => c.id == cid && c.task == tid)

/-- The access predicate of the board querysets:
`Q(owner=user) | Q(members=user)`. -/
def boardAccessOf (user : UserId) (b : Board) : Bool :=
  b.owner == user || b.members.contains user

/-!
## Boards: `boards_app/api/views.py`
-/

/-- The row set of `Board.objects.filter(Q(owner=user) | Q(members=user))`
before `.distinct()`: the OR across the M2M join makes Django emit a LEFT
OUTER JOIN onto the membership table, so a matching board contributes one
row per membership row satisfying the disjunction (and a single row when
its membership set is empty and the owner matches). -/
def accessibleRows (db : DB) (user : UserId) : List Board :=
  db.boards.flatMap (fun b =>
    if b.members.isEmpty then
      (if b.owner == user then [b] else [])
    else
      (b.members.filter (fun m => b.owner == user || m == user)).map (fun _ => b))

/-- Queryset of `BoardsView.get_queryset`: the accessible rows with
`.distinct()` applied. -/
def listAccessible (db : DB) (user : UserId) : List Board :=
  (accessibleRows db user).dedup

/-- Payload of `POST /api/boards/`. -/
structure BoardCreateInput where
  title : String
  memberIds : List UserId
deriving DecidableEq, Repr

/-- Auto-increment primary key for a new board row. -/
def freshBoardId (db : DB) : BoardId :=
  (db.boards.map (fun b => b.id)).foldr max 0 + 1

/-- Board creation (`BoardsView` POST): `BoardSerializer`'s `members` field is a plain
`PrimaryKeyRelatedField(many=True, queryset=User.objects.all())`, so an id
that does not resolve raises a `ValidationError`; on success
`perform_create` saves with `owner=request.user` and
`BoardSerializer.create` sets the resolved members. -/
def createBoard (db : DB) (user : UserId) (inp : BoardCreateInput) :
    ApiOutcome Board × DB :=
  if inp.memberIds.all (fun m => db.users.contains m) then
    let b : Board :=
      { id := freshBoardId db, title := inp.title, owner := user,
        members := inp.memberIds }
    (ApiOutcome.ok b, { db with boards := db.boards ++ [b] })
  else
    (ApiOutcome.invalidInput, db)

/-- Object lookup of `BoardDetailView.get_object`: looks the pk up inside the access-filtered
queryset; `except Exception` converts every lookup failure — the id not
existing at all included — into `PermissionDenied`; for PATCH/PUT/DELETE
(`mutating = true`) a further owner check also raises `PermissionDenied`. -/
def boardGetObject (db : DB) (user : UserId) (bid : BoardId)
    (mutating : Bool) : ApiOutcome Board :=
  match (db.boards.filter (boardAccessOf user)).find? (fun b => b.id == bid) with
  | none => ApiOutcome.accessDenied
  | some b =>
    if mutating && b.owner != user then ApiOutcome.accessDenied
    else ApiOutcome.ok b

/-- Board deletion (`DELETE /api/boards/<id>/`): `get_object` (with the owner check for
DELETE), then `perform_destroy` re-checks the owner and deletes; the
`on_delete=CASCADE` FKs remove the board's tasks and their comments. -/
def deleteBoard (db : DB) (user : UserId) (bid : BoardId) :
    ApiOutcome Unit × DB :=
  match boardGetObject db user bid true with
  | ApiOutcome.ok b =>
    if b.owner != user then (ApiOutcome.accessDenied, db)
    else
      (ApiOutcome.ok (),
        { db with
          boards := db.boards.filter (fun b2 => b2.id != bid),
          tasks := db.tasks.filter (fun t => t.board != bid),
          comments := db.comments.filter (fun c =>
            !(db.tasks.any (fun t => t.id == c.task && t.board == bid))) })
  | ApiOutcome.notFound => (ApiOutcome.notFound, db)
  | ApiOutcome.accessDenied => (ApiOutcome.accessDenied, db)
  | ApiOutcome.invalidInput => (ApiOutcome.invalidInput, db)
  | ApiOutcome.unhandledException => (ApiOutcome.unhandledException, db)

/-!
## Tasks: `task_app/api/views.py`, `task_app/api/serializers.py`
-/

/-- Payload of `POST /api/tasks/`. `assignee_id` / `reviewer_id` are
required but nullable, so they carry an `Option UserId`. -/
structure TaskCreateInput where
  board : BoardId
  title : String
  description : String
  status : String
  priority : String
  assigneeId : Option UserId
  reviewerId : Option UserId
  dueDate : Nat
deriving DecidableEq, Repr

/-- Shared validation `TaskSerializer.validate`: reads `attrs.get("board")` — `none` on a
partial update that omits the board field, in which case the very first
check dereferences `None.members` and raises `AttributeError` (an
unhandled exception). Otherwise: (1) the requester must be a member or
the owner of the board, (2) a non-null assignee must be a member,
(3) a non-null reviewer must be a member; each failure is
`PermissionDenied`. -/
def taskSerializerValidate (owner : UserId) (board? : Option Board)
    (assignee? reviewer? : Option UserId) : ApiOutcome Unit :=
  match board? with
  | none => ApiOutcome.unhandledException
  | some board =>
    if !(board.members.contains owner) && board.owner != owner then
      ApiOutcome.accessDenied
    else if (match assignee? with
             | some a => !(board.members.contains a)
             | none => false) then
      ApiOutcome.accessDenied
    else if (match reviewer? with
             | some r => !(board.members.contains r)
             | none => false) then
      ApiOutcome.accessDenied
    else
      ApiOutcome.ok ()

/-- Resolution of an `assignee_id` / `reviewer_id` value against the user
table (`PrimaryKeyRelatedField(queryset=User.objects.all(), allow_null=True)`):
`none` when a non-null id does not resolve (a `ValidationError`). -/
def resolveUserField (db : DB) (uid? : Option UserId) :
    Option (Option UserId) :=
  match uid? with
  | none => some none
  | some a => if db.users.contains a then some (some a) else none

/-- Auto-increment primary key for a new task row. -/
def freshTaskId (db : DB) : TaskId :=
  (db.tasks.map (fun t => t.id)).foldr max 0 + 1

/-- Task creation (`TasksView` POST): the `board` field (`BoardPrimaryKeyField`) raises
`NotFound` when the board id does not exist; unresolved assignee/reviewer
ids are field `ValidationError`s; then `TaskSerializer.validate` runs;
then `perform_create` independently requires the requester to be a board
*member* (`board.members.filter(id=user.id).exists()`) — the board owner
is not exempt there — and finally saves with `owner=user`. -/
def createTask (db : DB) (user : UserId) (inp : TaskCreateInput) :
    ApiOutcome Task × DB :=
  match findBoard db inp.board with
  | none => (ApiOutcome.notFound, db)
  | some board =>
    match resolveUserField db inp.assigneeId,
          resolveUserField db inp.reviewerId with
    | some assignee?, some reviewer? =>
      match taskSerializerValidate user (some board) assignee? reviewer? with
      | ApiOutcome.ok _ =>
        if !(board.members.contains user) then (ApiOutcome.accessDenied, db)
        else
          let t : Task :=
            { id := freshTaskId db, board := board.id, title := inp.title,
              description := inp.description, status := inp.status,
              priority := inp.priority, assignee := assignee?,
              reviewer := reviewer?, owner := user, dueDate := inp.dueDate }
          (ApiOutcome.ok t, { db with tasks := db.tasks ++ [t] })
      | ApiOutcome.notFound => (ApiOutcome.notFound, db)
      | ApiOutcome.accessDenied => (ApiOutcome.accessDenied, db)
      | ApiOutcome.invalidInput => (ApiOutcome.invalidInput, db)
      | ApiOutcome.unhandledException => (ApiOutcome.unhandledException, db)
    | _, _ => (ApiOutcome.invalidInput, db)

/-- The access predicate of `TaskDetailView.get_object` and the comment
views: requester is the task's owner, assignee or reviewer. -/
def taskAccessOf (user : UserId) (t : Task) : Bool :=
  t.owner == user || t.assignee == some user || t.reviewer == some user

/-- Payload of `PATCH /api/tasks/<id>/`: every serializer field may be
omitted (`partial=True`); for the nullable id fields, `some none` is an
explicit null and `none` an omitted field. -/
structure TaskUpdateInput where
  board : Option BoardId
  title : Option String
  description : Option String
  status : Option String
  priority : Option String
  assigneeId : Option (Option UserId)
  reviewerId : Option (Option UserId)
  dueDate : Option Nat
deriving DecidableEq, Repr

/-- Resolution of an optional nullable id field of a partial update:
outer `none` means the request had an unresolvable id (`ValidationError`). -/
def resolveOptField (db : DB) (f : Option (Option UserId)) :
    Option (Option (Option UserId)) :=
  match f with
  | none => some none
  | some none => some (some none)
  | some (some a) =>
    if db.users.contains a then some (some (some a)) else none

/-- The serializer part of a task update once the instance, the resolved
board attribute and the raw payload are at hand: resolve the id fields,
run `TaskSerializer.validate` on the attrs (`Option.join` turns both an
omitted and a null id field into the `None` that `attrs.get` yields), and
on success apply `ModelSerializer.update`, which `setattr`s exactly the
fields present in `validated_data` — the `board` field included, since it
is not in `read_only_fields`. -/
def patchTaskCore (db : DB) (user : UserId) (task : Task)
    (board? : Option Board) (inp : TaskUpdateInput) : ApiOutcome Task × DB :=
  match resolveOptField db inp.assigneeId, resolveOptField db inp.reviewerId with
  | some aRes, some rRes =>
    match taskSerializerValidate user board? aRes.join rRes.join with
    | ApiOutcome.ok _ =>
      let t' : Task :=
        { task with
          board := (board?.map Board.id).getD task.board,
          title := inp.title.getD task.title,
          description := inp.description.getD task.description,
          status := inp.status.getD task.status,
          priority := inp.priority.getD task.priority,
          assignee := aRes.getD task.assignee,
          reviewer := rRes.getD task.reviewer,
          dueDate := inp.dueDate.getD task.dueDate }
      (ApiOutcome.ok t',
        { db with
          tasks := db.tasks.map (fun t2 => if t2.id == task.id then t' else t2) })
    | ApiOutcome.notFound => (ApiOutcome.notFound, db)
    | ApiOutcome.accessDenied => (ApiOutcome.accessDenied, db)
    | ApiOutcome.invalidInput => (ApiOutcome.invalidInput, db)
    | ApiOutcome.unhandledException => (ApiOutcome.unhandledException, db)
  | _, _ => (ApiOutcome.invalidInput, db)

/-- Partial task update (`TaskDetailView.patch` → `partial_update`):
`get_object` 404s on a missing task and requires owner/assignee/reviewer;
a supplied board id is resolved by `BoardPrimaryKeyField` (`NotFound` when
absent); then the serializer step above runs. -/
def patchTask (db : DB) (user : UserId) (tid : TaskId)
    (inp : TaskUpdateInput) : ApiOutcome Task × DB :=
  match findTask db tid with
  | none => (ApiOutcome.notFound, db)
  | some task =>
    if !(taskAccessOf user task) then (ApiOutcome.accessDenied, db)
    else
      match inp.board with
      | some bid =>
        match findBoard db bid with
        | none => (ApiOutcome.notFound, db)
        | some b => patchTaskCore db user task (some b) inp
      | none => patchTaskCore db user task none inp

/-!
## Comments: `task_app/api/views.py`
-/

/-- Stable insertion of a comment into a list kept ascending by
`createdAt`. -/
def insertByCreated (c : Comment) : List Comment → List Comment
  | [] => [c]
  | d :: ds =>
    if c.createdAt ≤ d.createdAt then c :: d :: ds
    else d :: insertByCreated c ds

/-- Ordering `order_by("created_at")` of a comment queryset. -/
def sortByCreatedAt : List Comment → List Comment
  | [] => []
  | c :: cs => insertByCreated c (sortByCreatedAt cs)

/-- Comment listing (`TaskCommentsView.get_queryset`): 404 on a missing task, 403 unless the
requester is the task's owner, assignee or reviewer, then the task's
comments ordered by `created_at` — but an *empty* queryset is turned into
`NotFound("No comments found for this task.")`. -/
def listComments (db : DB) (user : UserId) (tid : TaskId) :
    ApiOutcome (List Comment) :=
  match findTask db tid with
  | none => ApiOutcome.notFound
  | some task =>
    if !(taskAccessOf user task) then ApiOutcome.accessDenied
    else
      let qs := sortByCreatedAt (db.comments.filter (fun c => c.task == tid))
      if qs.isEmpty then ApiOutcome.notFound
      else ApiOutcome.ok qs

/-- Auto-increment primary key for a new comment row. -/
def freshCommentId (db : DB) : CommentId :=
  (db.comments.map (fun c => c.id)).foldr max 0 + 1

/-- Blankness test of the view's `not content or not content.strip()`:
a string is empty or whitespace-only after stripping exactly when every
character is whitespace (the empty string included). -/
def blankContent (content : String) : Bool :=
  content.toList.all (fun ch => ch.isWhitespace)

/-- Comment creation (`TaskCommentsView.perform_create`): 404 on a missing task, 403 unless
owner/assignee/reviewer, 400 (`ValidationError`) when the content is empty
or whitespace-only after `strip()`, else the comment is saved with
`author=user`, `task=task` and an `auto_now_add` timestamp. -/
def createComment (db : DB) (user : UserId) (tid : TaskId)
    (content : String) : ApiOutcome Comment × DB :=
  match findTask db tid with
  | none => (ApiOutcome.notFound, db)
  | some task =>
    if !(taskAccessOf user task) then (ApiOutcome.accessDenied, db)
    else if blankContent content then (ApiOutcome.invalidInput, db)
    else
      let c : Comment :=
        { id := freshCommentId db, task := tid, author := user,
          content := content, createdAt := db.clock }
      (ApiOutcome.ok c,
        { db with comments := db.comments ++ [c], clock := db.clock + 1 })

/-- Comment deletion (`TaskCommentDetailView`,
`DELETE /api/tasks/<task_id>/comments/<comment_id>/`): 404 when the task or the comment (scoped to the
task) is missing; the comment is deleted iff the requester is the
comment's author or the task's owner, else `PermissionDenied`. -/
def deleteComment (db : DB) (user : UserId) (tid : TaskId)
    (cid : CommentId) : ApiOutcome Unit × DB :=
  match findTask db tid with
  | none => (ApiOutcome.notFound, db)
  | some task =>
    match findComment db tid cid with
    | none => (ApiOutcome.notFound, db)
    | some c =>
      if c.author == user || task.owner == user then
        (ApiOutcome.ok (),
          { db with comments := db.comments.filter (fun d => d.id != cid) })
      else (ApiOutcome.accessDenied, db)

/-!
## Sorting lemmas for the comment ordering
-/

theorem mem_insertByCreated (c x : Comment) :
    ∀ l : List Comment, (x ∈ insertByCreated c l ↔ x = c ∨ x ∈ l)
  | [] => by simp [insertByCreated]
  | d :: ds => by
    simp only [insertByCreated]
    split
    · simp [List.mem_cons]
    · simp only [List.mem_cons, mem_insertByCreated c x ds]
      tauto

theorem mem_sortByCreatedAt (x : Comment) :
    ∀ l : List Comment, (x ∈ sortByCreatedAt l ↔ x ∈ l)
  | [] => by simp [sortByCreatedAt]
  | c :: cs => by
    simp only [sortByCreatedAt, mem_insertByCreated, List.mem_cons,
      mem_sortByCreatedAt x cs]

theorem pairwise_insertByCreated (c : Comment) :
    ∀ l : List Comment,
      l.Pairwise (fun d e => d.createdAt ≤ e.createdAt) →
      (insertByCreated c l).Pairwise (fun d e => d.createdAt ≤ e.createdAt)
  | [], _ => by simp [insertByCreated]
  | d :: ds, h => by
    rcases List.pairwise_cons.mp h with ⟨hd, hds⟩
    simp only [insertByCreated]
    split
    · rename_i hle
      exact List.Pairwise.cons
        (by
          intro e he
          rcases List.mem_cons.mp he with rfl | he
          · exact hle
          · exact le_trans hle (hd e he)) h
    · rename_i hgt
      exact List.Pairwise.cons
        (by
          intro e he
          rcases (mem_insertByCreated c e ds).mp he with rfl | he
          · omega
          · exact hd e he)
        (pairwise_insertByCreated c ds hds)

theorem pairwise_sortByCreatedAt :
    ∀ l : List Comment,
      (sortByCreatedAt l).Pairwise (fun d e => d.createdAt ≤ e.createdAt)
  | [] => by simp [sortByCreatedAt]
  | c :: cs => by
    simpa only [sortByCreatedAt] using
      pairwise_insertByCreated c (sortByCreatedAt cs) (pairwise_sortByCreatedAt cs)

/-- Reduction of `listComments` on a nonempty comment set: when the task
resolves, the requester is authorized and the task has a comment, the
operation returns the task's comments sorted by `createdAt`. -/
theorem listComments_eq (db : DB) (u : UserId) (tid : TaskId) (task : Task)
    (ht : findTask db tid = some task) (ha : taskAccessOf u task = true)
    (hne : db.comments.filter (fun d => d.task == tid) ≠ []) :
    listComments db u tid =
      ApiOutcome.ok
        (sortByCreatedAt (db.comments.filter (fun d => d.task == tid))) := by
  have hne2 : (sortByCreatedAt
      (db.comments.filter (fun d => d.task == tid))).isEmpty = false := by
    rw [List.isEmpty_eq_false]
    cases hl : db.comments.filter (fun d => d.task == tid) with
    | nil => exact absurd hl hne
    | cons x xs =>
      intro h0
      have hx := (mem_sortByCreatedAt x (x :: xs)).mpr (by simp)
      rw [h0] at hx
      cases hx
  simp only [listComments, ht, ha, Bool.not_true, Bool.false_eq_true,
    if_false, hne2]

/-- Membership in the LEFT-JOIN row set of the board queryset: a board
appears there exactly when it is stored and the user is its owner or one
of its members. -/
theorem mem_accessibleRows (db : DB) (u : UserId) (B : Board) :
    B ∈ accessibleRows db u ↔
      B ∈ db.boards ∧ (B.owner = u ∨ u ∈ B.members) := by
  simp only [accessibleRows, List.mem_flatMap]
  constructor
  · rintro ⟨b, hb, hmem⟩
    split at hmem
    · split at hmem
      · rename_i ho
        simp only [List.mem_singleton] at hmem
        subst hmem
        exact ⟨hb, Or.inl (by simpa using ho)⟩
      · cases hmem
    · rename_i hne
      simp only [List.mem_map] at hmem
      obtain ⟨m, hm, rfl⟩ := hmem
      rcases List.mem_filter.mp hm with ⟨hmmem, hcond⟩
      simp only [Bool.or_eq_true, beq_iff_eq] at hcond
      rcases hcond with h1 | h2
      · exact ⟨hb, Or.inl h1⟩
      · exact ⟨hb, Or.inr (h2 ▸ hmmem)⟩
  · rintro ⟨hB, hcond⟩
    refine ⟨B, hB, ?_⟩
    by_cases he : B.members.isEmpty
    · have hown : B.owner = u := by
        rcases hcond with h | h
        · exact h
        · rw [List.isEmpty_iff] at he
          rw [he] at h
          cases h
      rw [if_pos he, if_pos (by simpa using hown)]
      simp
    · rw [if_neg he]
      simp only [List.mem_map]
      rcases hcond with h | h
      · obtain ⟨m, hm⟩ : ∃ m, m ∈ B.members := by
          cases hms : B.members with
          | nil => rw [hms] at he; simp at he
          | cons m ms => exact ⟨m, by simp⟩
        exact ⟨m, List.mem_filter.mpr ⟨hm, by simp [h]⟩, by trivial⟩
      · exact ⟨u, List.mem_filter.mpr ⟨h, by simp⟩, by trivial⟩

/-!
## Concrete sample stores used by counterexamples and witnesses
-/

/-- Sample board with pk 1, owned by user 1, whose member set is `[2]`
only — the owner is not listed among the members. -/
def boardOne : Board := ⟨1, "Board One", 1, [2]⟩

/-- Sample board with pk 2, owned by user 2, members `[1, 2]`. -/
def boardTwo : Board := ⟨2, "Board Two", 2, [1, 2]⟩

/-- Sample task with pk 1 living on board 1, owned by user 2, with no
assignee and no reviewer. -/
def taskOne : Task := ⟨1, 1, "Task One", "a task", "to-do", "high", none, none, 2, 5⟩

/-- Sample comment with pk 1 on task 1, authored by user 2 at time 0. -/
def commentOne : Comment := ⟨1, 1, 2, "hi", 0⟩

/-- Sample store: users 1, 2, 3; the two boards above; one task; no
comments. -/
def demoDB : DB := ⟨[1, 2, 3], [boardOne, boardTwo], [taskOne], [], 0⟩

/-- The sample store with one comment on task 1 and the clock advanced. -/
def commentDB : DB := { demoDB with comments := [commentOne], clock := 1 }

/-!
## The claims
-/

/-- C6: deleting a comment `c` on task `t` succeeds exactly when the
requester is `c`'s author or `t`'s owner, and the decision depends only on
the task and comment tables — any store agreeing on those (board
membership may differ arbitrarily, e.g. after the author was removed from
the board) yields the same outcome. -/
theorem comment_delete_author_or_task_owner (db : DB) (u : UserId)
    (tid : TaskId) (cid : CommentId) (task : Task) (c : Comment)
    (ht : findTask db tid = some task)
    (hc : findComment db tid cid = some c) :
    (((deleteComment db u tid cid).1 = ApiOutcome.ok ()) ↔
      (c.author = u ∨ task.owner = u)) ∧
    (∀ db2 : DB, db2.tasks = db.tasks → db2.comments = db.comments →
      (deleteComment db2 u tid cid).1 = (deleteComment db u tid cid).1) := by
  constructor
  · simp only [deleteComment, ht, hc]
    split
    · rename_i hcond
      simp only [Bool.or_eq_true, beq_iff_eq] at hcond
      simp [hcond]
    · rename_i hcond
      simp only [Bool.or_eq_true, beq_iff_eq] at hcond
      push_neg at hcond
      simp [hcond.1, hcond.2]
  · intro db2 h2t h2c
    have ht2 : findTask db2 tid = some task := by
      simp only [findTask, h2t]
      exact ht
    have hc2 : findComment db2 tid cid = some c := by
      simp only [findComment, h2c]
      exact hc
    simp only [deleteComment, ht, hc, ht2, hc2]
    split <;> rfl

/-- Witness for C6 at a concrete store: user 3 is neither the author of
comment 1 nor the owner of task 1, so the delete fails; and the outcome is
unchanged when the boards table is emptied. -/
theorem comment_delete_author_or_task_owner_witness :
    (((deleteComment commentDB 3 1 1).1 = ApiOutcome.ok ()) ↔
      (commentOne.author = 3 ∨ taskOne.owner = 3)) ∧
    ((deleteComment { commentDB with boards := [] } 3 1 1).1 =
      (deleteComment commentDB 3 1 1).1) :=
  ⟨(comment_delete_author_or_task_owner commentDB 3 1 1 taskOne commentOne
      (by decide) (by decide)).1,
   (comment_delete_author_or_task_owner commentDB 3 1 1 taskOne commentOne
      (by decide) (by decide)).2 { commentDB with boards := [] } rfl rfl⟩

/-- C10: for a task with zero comments, the comment list operation invoked
by an authorized user (owner, assignee or reviewer) yields `NotFound`
rather than an empty list, because `TaskCommentsView.get_queryset` raises
`NotFound` on an empty queryset. -/
theorem empty_comment_list_not_found (db : DB) (u : UserId) (tid : TaskId)
    (task : Task)
    (ht : findTask db tid = some task)
    (ha : taskAccessOf u task = true)
    (hnone : db.comments.filter (fun c => c.task == tid) = []) :
    listComments db u tid = ApiOutcome.notFound := by
  simp [listComments, ht, ha, hnone, sortByCreatedAt]

/-- Witness for C10: in the sample store without comments, user 2 owns
task 1 and listing its comments yields `NotFound`. -/
theorem empty_comment_list_not_found_witness :
    listComments demoDB 2 1 = ApiOutcome.notFound :=
  empty_comment_list_not_found demoDB 2 1 taskOne (by decide) (by decide)
    (by decide)

/-- C1 counterexample: user 1 owns board 1 but is not in its member set
`[2]`, yet creating a task on board 1 as user 1 fails with `AccessDenied`
(the member-only check of `TasksView.perform_create` fires), refuting the
claim that a board owner who is not also a member may create a task. -/
theorem task_create_owner_denied_counterexample :
    boardOne.owner = 1 ∧
    boardOne.members.contains 1 = false ∧
    findBoard demoDB 1 = some boardOne ∧
    (createTask demoDB 1 ⟨1, "t", "d", "to-do", "high", none, none, 9⟩).1 =
      ApiOutcome.accessDenied := by
  decide

/-- C1 amended: the task-create operation succeeds past its permission
checks exactly when the requester is in the board's member set; whenever
the requester is not a member — the board's owner included — it fails
with `AccessDenied` (the serializer admits owner-or-member, but
`TasksView.perform_create` then requires membership). -/
theorem task_create_succeeds_iff_member (db : DB) (u : UserId)
    (inp : TaskCreateInput) (b : Board)
    (hb : findBoard db inp.board = some b)
    (ha : inp.assigneeId = none)
    (hr : inp.reviewerId = none) :
    ((createTask db u inp).1.isOk = b.members.contains u) ∧
    (b.members.contains u = false →
      (createTask db u inp).1 = ApiOutcome.accessDenied) := by
  by_cases hm : u ∈ b.members
  · constructor
    · simp [createTask, hb, ha, hr, resolveUserField, taskSerializerValidate,
        hm, ApiOutcome.isOk]
    · intro hfalse
      simp [hm] at hfalse
  · by_cases ho : b.owner = u
    · constructor
      · simp [createTask, hb, ha, hr, resolveUserField, taskSerializerValidate,
          hm, ho, ApiOutcome.isOk]
      · intro _
        simp [createTask, hb, ha, hr, resolveUserField, taskSerializerValidate,
          hm, ho]
    · constructor
      · simp [createTask, hb, ha, hr, resolveUserField, taskSerializerValidate,
          hm, ho, ApiOutcome.isOk]
      · intro _
        simp [createTask, hb, ha, hr, resolveUserField, taskSerializerValidate,
          hm, ho]

/-- Witness for C1 at a concrete store: user 2 is a member of board 1, so
task creation succeeds there. -/
theorem task_create_succeeds_iff_member_witness :
    ((createTask demoDB 2 ⟨1, "t", "d", "to-do", "high", none, none, 9⟩).1.isOk
      = boardOne.members.contains 2) :=
  (task_create_succeeds_iff_member demoDB 2
    ⟨1, "t", "d", "to-do", "high", none, none, 9⟩ boardOne
    (by decide) rfl rfl).1

/-- C2 counterexample: user 1 owns board 1 and deletes it twice; the first
call succeeds, the board no longer resolves, yet the second call yields
`AccessDenied` — not the `NotFound` the claim requires — because
`BoardDetailView.get_object` converts the failed lookup into
`PermissionDenied`. -/
theorem board_delete_twice_counterexample :
    (deleteBoard demoDB 1 1).1 = ApiOutcome.ok () ∧
    findBoard (deleteBoard demoDB 1 1).2 1 = none ∧
    (deleteBoard (deleteBoard demoDB 1 1).2 1 1).1 = ApiOutcome.accessDenied := by
  decide

/-- C2 amended: when the board id does not exist at all, or it exists but
the requester is neither owner nor member (board pks being unique), board
get/update/delete fails with `AccessDenied` — never a silent success and
never `NotFound` — since `get_object` converts every lookup failure into
`PermissionDenied`. -/
theorem board_lookup_failures_denied (db : DB) (u : UserId) (k : BoardId)
    (mutating : Bool)
    (hids : (db.boards.map Board.id).Nodup)
    (h : findBoard db k = none ∨
      ∃ b, findBoard db k = some b ∧ boardAccessOf u b = false) :
    boardGetObject db u k mutating = ApiOutcome.accessDenied ∧
    (deleteBoard db u k).1 = ApiOutcome.accessDenied := by
  have hcore : (db.boards.filter (boardAccessOf u)).find?
      (fun b => b.id == k) = none := by
    rw [List.find?_eq_none]
    intro x hx
    have hxb : x ∈ db.boards := List.mem_of_mem_filter hx
    have hxa : boardAccessOf u x = true := List.of_mem_filter hx
    rcases h with h1 | ⟨b, hb, hacc⟩
    · have := List.find?_eq_none.mp h1 x hxb
      exact this
    · intro hid
      have hb2 : db.boards.find? (fun x => x.id == k) = some b := hb
      have hbb : b ∈ db.boards := List.mem_of_find?_eq_some hb2
      have hbid := List.find?_some hb2
      have hxk : x.id = k := by simpa using hid
      have hbk : b.id = k := by simpa using hbid
      have hxeq : x = b :=
        List.inj_on_of_nodup_map hids hxb hbb (by rw [hxk, hbk])
      rw [hxeq, hacc] at hxa
      exact absurd hxa (by simp)
  constructor
  · simp [boardGetObject, hcore]
  · simp [deleteBoard, boardGetObject, hcore]

/-- Witness for C2 at a concrete store: board 7 does not exist in the
sample store, and both the get/update/delete lookup and the delete
operation fail with `AccessDenied`. -/
theorem board_lookup_failures_denied_witness :
    boardGetObject demoDB 1 7 true = ApiOutcome.accessDenied ∧
    (deleteBoard demoDB 1 7).1 = ApiOutcome.accessDenied :=
  board_lookup_failures_denied demoDB 1 7 true (by decide)
    (Or.inl (by decide))

/-- C3: a task-create request whose (resolving) `assigneeId` denotes a
user outside the target board's member set fails with `AccessDenied` and
leaves the task store unchanged — either the requester's own membership
check or the assignee membership check fires inside
`TaskSerializer.validate`, before anything is saved. -/
theorem task_create_bad_assignee_denied (db : DB) (u : UserId)
    (inp : TaskCreateInput) (b : Board) (a : UserId)
    (hb : findBoard db inp.board = some b)
    (ha : inp.assigneeId = some a)
    (hares : a ∈ db.users)
    (ham : a ∉ b.members)
    (hr : ∀ r, inp.reviewerId = some r → r ∈ db.users) :
    createTask db u inp = (ApiOutcome.accessDenied, db) := by
  have hrres : ∃ r?, resolveUserField db inp.reviewerId = some r? := by
    cases hrv : inp.reviewerId with
    | none => exact ⟨none, rfl⟩
    | some r => exact ⟨some r, by simp [resolveUserField, hr r hrv]⟩
  obtain ⟨r?, hrres⟩ := hrres
  have hval : taskSerializerValidate u (some b) (some a) r? =
      ApiOutcome.accessDenied := by
    simp only [taskSerializerValidate]
    split
    · rfl
    · simp [ham]
  have hassr : resolveUserField db inp.assigneeId = some (some a) := by
    simp [resolveUserField, ha, hares]
  simp [createTask, hb, hassr, hrres, hval]

/-- Witness for C3: user 3 resolves in the sample store but is not a
member of board 1, so creating a task on board 1 with assignee 3 fails
with `AccessDenied` and the store is unchanged. -/
theorem task_create_bad_assignee_denied_witness :
    createTask demoDB 2 ⟨1, "t", "d", "to-do", "high", some 3, none, 9⟩ =
      (ApiOutcome.accessDenied, demoDB) :=
  task_create_bad_assignee_denied demoDB 2
    ⟨1, "t", "d", "to-do", "high", some 3, none, 9⟩ boardOne 3
    (by decide) rfl (by decide) (by decide) (by intro r hr; cases hr)

/-- C5 counterexample: user id 99 does not exist in the sample store, yet
creating a board with `memberIds = [2, 99]` fails with `InvalidInput` (a
plain field `ValidationError`), not with the `NotFound` the claim
requires. -/
theorem board_create_invalid_member_counterexample :
    demoDB.users.contains 99 = false ∧
    createBoard demoDB 1 ⟨"X", [2, 99]⟩ = (ApiOutcome.invalidInput, demoDB) ∧
    (ApiOutcome.invalidInput : ApiOutcome Board) ≠ ApiOutcome.notFound := by
  decide

/-- C5 amended: a board-create request with an id in `memberIds` that does
not resolve to an existing user fails with `InvalidInput` (not
`NotFound`), leaving the store unchanged; otherwise it creates a board
with `owner` = the calling user and `members` = the resolved users. -/
theorem board_create_member_resolution (db : DB) (u : UserId)
    (inp : BoardCreateInput) :
    (inp.memberIds.all (fun m => db.users.contains m) = false →
      createBoard db u inp = (ApiOutcome.invalidInput, db)) ∧
    (inp.memberIds.all (fun m => db.users.contains m) = true →
      createBoard db u inp =
        (ApiOutcome.ok ⟨freshBoardId db, inp.title, u, inp.memberIds⟩,
         { db with boards := db.boards ++
             [⟨freshBoardId db, inp.title, u, inp.memberIds⟩] })) := by
  constructor <;> intro h <;> (simp only [createBoard]; rw [h]; simp)

/-- Witness for C5: the failing half at `memberIds = [2, 99]` and the
succeeding half at `memberIds = [2, 3]` in the sample store. -/
theorem board_create_member_resolution_witness :
    createBoard demoDB 1 ⟨"X", [2, 99]⟩ = (ApiOutcome.invalidInput, demoDB) ∧
    createBoard demoDB 1 ⟨"X", [2, 3]⟩ =
      (ApiOutcome.ok ⟨3, "X", 1, [2, 3]⟩,
       { demoDB with boards := demoDB.boards ++ [⟨3, "X", 1, [2, 3]⟩] }) :=
  ⟨(board_create_member_resolution demoDB 1 ⟨"X", [2, 99]⟩).1 (by decide),
   (board_create_member_resolution demoDB 1 ⟨"X", [2, 3]⟩).2 (by decide)⟩

/-- C9: a partial task update that omits the `board` field reaches
`TaskSerializer.validate` with `attrs.get("board") = None`, whose first
check dereferences the absent board before any membership check — the
request ends in an unhandled exception, not in a taxonomy error. -/
theorem patch_without_board_crashes (db : DB) (u : UserId) (tid : TaskId)
    (inp : TaskUpdateInput) (task : Task)
    (ht : findTask db tid = some task)
    (ha : taskAccessOf u task = true)
    (hb : inp.board = none)
    (hasr : ∃ x, resolveOptField db inp.assigneeId = some x)
    (hrsr : ∃ y, resolveOptField db inp.reviewerId = some y) :
    patchTask db u tid inp = (ApiOutcome.unhandledException, db) := by
  obtain ⟨x, hx⟩ := hasr
  obtain ⟨y, hy⟩ := hrsr
  simp [patchTask, ht, ha, hb, patchTaskCore, hx, hy, taskSerializerValidate]

/-- Witness for C9: user 2 owns task 1; a PATCH that only changes the
title (board omitted) ends in the unhandled exception. -/
theorem patch_without_board_crashes_witness :
    patchTask demoDB 2 1 ⟨none, some "New", none, none, none, none, none, none⟩ =
      (ApiOutcome.unhandledException, demoDB) :=
  patch_without_board_crashes demoDB 2 1
    ⟨none, some "New", none, none, none, none, none, none⟩ taskOne
    (by decide) (by decide) rfl ⟨none, rfl⟩ ⟨none, rfl⟩

/-- C4 counterexample: task 1 lives on board 1, yet a PATCH by its owner
(user 2, also a member of board 2) carrying `board = 2` succeeds and the
stored task now references board 2 — the board field is part of the
update payload and the task is moved, refuting immutability. -/
theorem task_board_writable_counterexample :
    (findTask demoDB 1).map Task.board = some 1 ∧
    (patchTask demoDB 2 1
      ⟨some 2, none, none, none, none, none, none, none⟩).1.isOk = true ∧
    ((patchTask demoDB 2 1
      ⟨some 2, none, none, none, none, none, none, none⟩).2.tasks.map
        Task.board) = [2] := by
  decide

/-- C4 amended: the `board` field is writable in task updates: every
update that succeeds carries a board id in its payload and sets the
task's board reference to exactly that id (so a task can be moved to a
different board), and an update omitting the field never succeeds. -/
theorem task_update_board_from_payload (db : DB) (u : UserId) (tid : TaskId)
    (inp : TaskUpdateInput) (t' : Task)
    (h : (patchTask db u tid inp).1 = ApiOutcome.ok t') :
    ∃ bid, inp.board = some bid ∧ t'.board = bid := by
  simp only [patchTask] at h
  split at h
  · simp at h
  · split at h
    · simp at h
    · split at h
      · rename_i bid hbid
        split at h
        · simp at h
        · rename_i b hfb
          simp only [patchTaskCore] at h
          split at h
          · split at h
            · simp only [Prod.fst, ApiOutcome.ok.injEq] at h
              have hb2 : db.boards.find? (fun x => x.id == bid) = some b := hfb
              have hbid2 := List.find?_some hb2
              have hbk : b.id = bid := by simpa using hbid2
              refine ⟨bid, hbid, ?_⟩
              rw [← h]
              simpa using hbk
            · simp at h
            · simp at h
            · simp at h
            · simp at h
          · simp at h
      · rename_i hbnone
        simp only [patchTaskCore] at h
        split at h
        · simp [taskSerializerValidate] at h
        · simp at h

/-- Witness for C4's amended claim: the successful concrete PATCH above
carries `board = 2` and the updated task's board is 2. -/
theorem task_update_board_from_payload_witness :
    ∃ bid,
      (⟨some 2, none, none, none, none, none, none, none⟩ :
        TaskUpdateInput).board = some bid ∧
      (⟨1, 2, "Task One", "a task", "to-do", "high", none, none, 2, 5⟩ :
        Task).board = bid :=
  task_update_board_from_payload demoDB 2 1
    ⟨some 2, none, none, none, none, none, none, none⟩
    ⟨1, 2, "Task One", "a task", "to-do", "high", none, none, 2, 5⟩
    (by decide)

/-- C7: a comment-create request by an authorized user (task owner,
assignee or reviewer) fails with `InvalidInput` and leaves the store
unchanged when the content trims to the empty string; otherwise a comment
with `author` = the calling user is persisted and appears in the comment
list, which is ordered ascending by `created_at` — the new comment coming
after every prior comment of the task. Blankness of the content is the
all-whitespace test `blankContent`. -/
theorem comment_create_validated_and_listed (db : DB) (u : UserId)
    (tid : TaskId) (task : Task) (content : String)
    (ht : findTask db tid = some task)
    (ha : taskAccessOf u task = true)
    (hclk : ∀ d ∈ db.comments, d.createdAt < db.clock) :
    (blankContent content = true →
      createComment db u tid content = (ApiOutcome.invalidInput, db)) ∧
    (blankContent content = false →
      ∃ c, (createComment db u tid content).1 = ApiOutcome.ok c ∧
        c.author = u ∧
        ∃ l, listComments (createComment db u tid content).2 u tid =
            ApiOutcome.ok l ∧
          c ∈ l ∧ l.Pairwise (fun d e => d.createdAt ≤ e.createdAt) ∧
          (∀ d ∈ l, d ≠ c → d.createdAt < c.createdAt)) := by
  constructor
  · intro hempty
    simp [createComment, ht, ha, hempty]
  · intro hne
    have hcreate : createComment db u tid content =
        (ApiOutcome.ok (⟨freshCommentId db, tid, u, content, db.clock⟩ : Comment),
         { db with
            comments := db.comments ++
              [⟨freshCommentId db, tid, u, content, db.clock⟩],
            clock := db.clock + 1 }) := by
      simp [createComment, ht, ha, hne]
    refine ⟨⟨freshCommentId db, tid, u, content, db.clock⟩,
      by rw [hcreate], rfl, ?_⟩
    rw [hcreate]
    have ht2 : findTask
        { db with
          comments := db.comments ++
            [⟨freshCommentId db, tid, u, content, db.clock⟩],
          clock := db.clock + 1 } tid = some task := ht
    have hfilter : ((db.comments ++
        [(⟨freshCommentId db, tid, u, content, db.clock⟩ : Comment)]).filter
          (fun d => d.task == tid)) =
        db.comments.filter (fun d => d.task == tid) ++
          [⟨freshCommentId db, tid, u, content, db.clock⟩] := by
      rw [List.filter_append]
      simp
    have hne2 : ((db.comments ++
        [(⟨freshCommentId db, tid, u, content, db.clock⟩ : Comment)]).filter
          (fun d => d.task == tid)) ≠ [] := by
      rw [hfilter]
      simp
    refine ⟨_, listComments_eq _ u tid task ht2 ha hne2, ?_, ?_, ?_⟩
    · rw [mem_sortByCreatedAt, hfilter]
      simp
    · exact pairwise_sortByCreatedAt _
    · intro d hd hdc
      rw [mem_sortByCreatedAt, hfilter, List.mem_append] at hd
      rcases hd with hd | hd
      · exact hclk d (List.mem_of_mem_filter hd)
      · simp only [List.mem_singleton] at hd
        exact absurd hd hdc

/-- Witness for C7 at the sample store: user 2 owns task 1; posting
whitespace fails with `InvalidInput`, posting a word succeeds. -/
theorem comment_create_validated_and_listed_witness :
    (createComment commentDB 2 1 "   " = (ApiOutcome.invalidInput, commentDB)) ∧
    (∃ c, (createComment commentDB 2 1 "ok").1 = ApiOutcome.ok c ∧
      c.author = 2 ∧
      ∃ l, listComments (createComment commentDB 2 1 "ok").2 2 1 =
          ApiOutcome.ok l ∧
        c ∈ l ∧ l.Pairwise (fun d e => d.createdAt ≤ e.createdAt) ∧
        (∀ d ∈ l, d ≠ c → d.createdAt < c.createdAt)) :=
  ⟨(comment_create_validated_and_listed commentDB 2 1 taskOne "   "
      (by decide) (by decide) (by decide)).1 (by decide),
   (comment_create_validated_and_listed commentDB 2 1 taskOne "ok"
      (by decide) (by decide) (by decide)).2 (by decide)⟩

/-- C8: the board listing for a user contains exactly the stored boards
whose owner is the user or whose member set contains the user, and it
contains no duplicates — a user who is both owner and member sees a board
once, the `.distinct()` having collapsed the join rows. -/
theorem list_accessible_characterization (db : DB) (u : UserId) (B : Board) :
    (B ∈ listAccessible db u ↔
      B ∈ db.boards ∧ (B.owner = u ∨ u ∈ B.members)) ∧
    (listAccessible db u).Nodup := by
  constructor
  · rw [listAccessible, List.mem_dedup]
    exact mem_accessibleRows db u B
  · exact List.nodup_dedup _

/-- Witness for C8 at the sample store: user 2 is both the owner and a
member of board 2, which the listing contains exactly once, and board 1
(where user 2 is a member) is present as well. -/
theorem list_accessible_characterization_witness :
    (boardTwo ∈ listAccessible demoDB 2 ↔
      boardTwo ∈ demoDB.boards ∧ (boardTwo.owner = 2 ∨ 2 ∈ boardTwo.members)) ∧
    (listAccessible demoDB 2).Nodup :=
  list_accessible_characterization demoDB 2 boardTwo

end KanMind
